import Mathlib

/-!
Formal model of the Intcode virtual machine as implemented in this repository.
The repository re-implements the machine several times with growing feature
sets; the variants relevant here are:

* day 02 (`src/02/main.rs`): arithmetic-only loop `run`;
* day 05 (`src/05/main.rs`): decoder `Instruction::fetch` with parameter modes;
* day 07 (`src/07/main.rs`): full I/O machine with fixed-size memory and
  channel ports;
* day 09 (`src/09/main.rs`): adds Relative mode, a relative base register and
  auto-growing memory (i128 cells);
* day 11 (`src/11/main.rs`): same as day 09 on i64, with a checked
  `usize::try_from` conversion in `value_mut`.

Machine integers (`i64`/`i128`) are modelled as `Int`; Rust's `as usize`
casts are modelled explicitly as truncation to the low 64 bits.  A Rust
`panic` is modelled as `Except.error` carrying the panic message; a Rust
`Option` return is modelled as `Option`.
-/

deriving instance DecidableEq for Except

namespace Aoc2019

/-- Rust's `as usize` cast of a signed integer on a 64-bit target: keep the
low 64 bits, read as an unsigned number. -/
def usizeCast (v : Int) : Nat := (v % (2 ^ 64)).toNat

/-- Read the cell at address `i` of a memory vector, defaulting to `0`
(`memory.get(i).unwrap_or(&0)` / reads past the end of the `Vec`). -/
def readAddr (mem : List Int) (i : Nat) : Int := (mem[i]?).getD 0

/-- Result of one call to `Interpreter::step`.  `next` models `step`
returning `true` with the updated machine, `done` models `step` returning
`false` (the `Halt` arm), `fault` models a panic, and `blocked` models a
`recv()` that waits on an open but empty channel. -/
inductive StepOut (σ : Type) where
  | fault (msg : String)
  | blocked
  | done (s : σ)
  | next (s : σ)
deriving DecidableEq

namespace Day09

/-- The opcode set of `src/09/main.rs`. -/
inductive Opcode where
  | add
  | multiply
  | read
  | write
  | jumpIfTrue
  | jumpIfFalse
  | lessThan
  | equals
  | relativeBase
  | halt
deriving DecidableEq

/-- `impl From<i128> for Opcode` in `src/09/main.rs`; `none` models the
`panic("unknown instruction")` arm. -/
def Opcode.fromInt? (item : Int) : Option Opcode :=
  if item = 1 then some .add
  else if item = 2 then some .multiply
  else if item = 3 then some .read
  else if item = 4 then some .write
  else if item = 5 then some .jumpIfTrue
  else if item = 6 then some .jumpIfFalse
  else if item = 7 then some .lessThan
  else if item = 8 then some .equals
  else if item = 9 then some .relativeBase
  else if item = 99 then some .halt
  else none

/-- Parameter addressing modes of `src/09/main.rs`. -/
inductive ParameterMode where
  | position
  | immediate
  | relative
deriving DecidableEq

/-- `impl From<i128> for ParameterMode`; `none` models the
`panic("unknown parameter mode")` arm. -/
def ParameterMode.fromInt? (item : Int) : Option ParameterMode :=
  if item = 0 then some .position
  else if item = 1 then some .immediate
  else if item = 2 then some .relative
  else none

/-- A decoded parameter: addressing mode plus raw cell value. -/
structure Parameter where
  mode : ParameterMode
  value : Int
deriving DecidableEq

/-- A decoded instruction: opcode plus the three decoded parameters. -/
structure Instruction where
  opcode : Opcode
  parameters : Parameter × Parameter × Parameter
deriving DecidableEq

/-- `Instruction::fetch` of `src/09/main.rs`.  Returns `.ok none` when
`memory.get(ip)` is `None`; `.error` models a panic raised by one of the
`From` conversions (evaluated in source order: opcode first, then the three
parameter modes).  Rust `/` and `%` on signed integers truncate toward zero,
hence `Int.tdiv` / `Int.tmod`. -/
def Instruction.fetch (ip : Int) (memory : List Int) : Except String (Option Instruction) :=
  let ipn := usizeCast ip
  match memory[ipn]? with
  | none => .ok none
  | some instruction =>
    match Opcode.fromInt? (instruction.tmod 100) with
    | none => .error "unknown instruction"
    | some opcode =>
      match ParameterMode.fromInt? ((instruction.tdiv 100).tmod 10) with
      | none => .error "unknown parameter mode"
      | some m1 =>
        match ParameterMode.fromInt? ((instruction.tdiv 1000).tmod 10) with
        | none => .error "unknown parameter mode"
        | some m2 =>
          match ParameterMode.fromInt? ((instruction.tdiv 10000).tmod 10) with
          | none => .error "unknown parameter mode"
          | some m3 =>
            .ok (some
              { opcode := opcode
                parameters :=
                  (⟨m1, readAddr memory (ipn + 1)⟩,
                   ⟨m2, readAddr memory (ipn + 2)⟩,
                   ⟨m3, readAddr memory (ipn + 3)⟩) })

/-- The `Interpreter` state of `src/09/main.rs`.  The `rx`/`tx` channel ends
are modelled by explicit queues: `input` is the sequence of values available
to `recv()` (or to the console fallback), `inClosed` records that the
sending half of the input channel has been dropped, `output` is the sequence
of values successfully sent on the output channel, and `outClosed` records
that the receiving half of the output channel has been dropped (in which
case `tx.send` returns an error that the `Write` arm discards). -/
structure Interpreter where
  memory : List Int
  input : List Int
  inClosed : Bool
  output : List Int
  outClosed : Bool
  last_output : Option Int
  ip : Int
  relative_base : Int
deriving DecidableEq

/-- `Interpreter::value` of `src/09/main.rs`: resolve a parameter for
reading.  Total: out-of-range indices read as `0` via `unwrap_or(&0)`. -/
def Interpreter.value (self : Interpreter) (parameter : Parameter) : Int :=
  match parameter.mode with
  | .position => readAddr self.memory (usizeCast parameter.value)
  | .relative => readAddr self.memory (usizeCast (parameter.value + self.relative_base))
  | .immediate => parameter.value

/-- The index computed by `Interpreter::value_mut` of `src/09/main.rs`
(`none` for an Immediate parameter, which panics there). -/
def Interpreter.writeIndex? (self : Interpreter) (parameter : Parameter) : Option Nat :=
  match parameter.mode with
  | .position => some (usizeCast parameter.value)
  | .relative => some (usizeCast (parameter.value + self.relative_base))
  | .immediate => none

/-- `self.memory.resize(index + 1, 0)` when `index >= len`, followed by the
store at `index` — the effect of assigning through `value_mut`. -/
def growSet (mem : List Int) (index : Nat) (v : Int) : List Int :=
  (if mem.length ≤ index then mem ++ List.replicate (index + 1 - mem.length) 0 else mem).set index v

/-- The combined effect of `*self.value_mut(parameter) = v` in
`src/09/main.rs`: panics on an Immediate target, otherwise zero-extends the
memory as needed and stores `v`. -/
def Interpreter.writeMem (self : Interpreter) (parameter : Parameter) (v : Int) : Except String (List Int) :=
  match self.writeIndex? parameter with
  | none => .error "can't get immediate as mut"
  | some index => .ok (growSet self.memory index v)

/-- `Interpreter::step` of `src/09/main.rs`.  Note the source's `Read` arm
stores the received value through `c` (the third decoded parameter), not
through `a`.  In an assignment `*place = rhs` Rust evaluates `rhs` before
the place expression, so source reads and the `recv()` happen on the
pre-state before the destination is resolved. -/
def Interpreter.step (self : Interpreter) : StepOut Interpreter :=
  match Instruction.fetch self.ip self.memory with
  | .error msg => .fault msg
  | .ok none => .fault "called unwrap on a None value"
  | .ok (some instruction) =>
    let (a, b, c) := instruction.parameters
    match instruction.opcode with
    | .add =>
      match self.writeMem c (self.value a + self.value b) with
      | .error msg => .fault msg
      | .ok mem => .next { self with memory := mem, ip := self.ip + 4 }
    | .multiply =>
      match self.writeMem c (self.value a * self.value b) with
      | .error msg => .fault msg
      | .ok mem => .next { self with memory := mem, ip := self.ip + 4 }
    | .read =>
      match self.input with
      | [] =>
        if self.inClosed then .fault "called unwrap on an Err value: RecvError" else .blocked
      | v :: rest =>
        match self.writeMem c v with
        | .error msg => .fault msg
        | .ok mem => .next { self with memory := mem, input := rest, ip := self.ip + 2 }
    | .write =>
      let value := self.value a
      .next { self with
        last_output := some value
        output := if self.outClosed then self.output else self.output ++ [value]
        ip := self.ip + 2 }
    | .jumpIfTrue =>
      .next { self with ip := if self.value a ≠ 0 then self.value b else self.ip + 3 }
    | .jumpIfFalse =>
      .next { self with ip := if self.value a = 0 then self.value b else self.ip + 3 }
    | .lessThan =>
      match self.writeMem c (if self.value a < self.value b then 1 else 0) with
      | .error msg => .fault msg
      | .ok mem => .next { self with memory := mem, ip := self.ip + 4 }
    | .equals =>
      match self.writeMem c (if self.value a = self.value b then 1 else 0) with
      | .error msg => .fault msg
      | .ok mem => .next { self with memory := mem, ip := self.ip + 4 }
    | .relativeBase =>
      .next { self with relative_base := self.relative_base + self.value a, ip := self.ip + 2 }
    | .halt => .done self

end Day09

namespace Day07

/-- The opcode set of `src/07/main.rs` (no `RelativeBase`). -/
inductive Opcode where
  | add
  | multiply
  | read
  | write
  | jumpIfTrue
  | jumpIfFalse
  | lessThan
  | equals
  | halt
deriving DecidableEq

/-- `impl From<i64> for Opcode` in `src/07/main.rs`; `none` models the panic
arm (in particular `9` is unknown in this variant). -/
def Opcode.fromInt? (item : Int) : Option Opcode :=
  if item = 1 then some .add
  else if item = 2 then some .multiply
  else if item = 3 then some .read
  else if item = 4 then some .write
  else if item = 5 then some .jumpIfTrue
  else if item = 6 then some .jumpIfFalse
  else if item = 7 then some .lessThan
  else if item = 8 then some .equals
  else if item = 99 then some .halt
  else none

/-- Parameter addressing modes of `src/07/main.rs` (no `Relative`). -/
inductive ParameterMode where
  | position
  | immediate
deriving DecidableEq

/-- `impl From<i64> for ParameterMode` in `src/07/main.rs`; digit `2` hits
the panic arm. -/
def ParameterMode.fromInt? (item : Int) : Option ParameterMode :=
  if item = 0 then some .position
  else if item = 1 then some .immediate
  else none

/-- A decoded parameter of `src/07/main.rs`. -/
structure Parameter where
  mode : ParameterMode
  value : Int
deriving DecidableEq

/-- A decoded instruction of `src/07/main.rs`. -/
structure Instruction where
  opcode : Opcode
  parameters : Parameter × Parameter × Parameter
deriving DecidableEq

/-- `Instruction::fetch` of `src/07/main.rs`: same digit extraction as the
day-09 decoder (`/100`, `/1000`, `/10000`), over the smaller mode and
opcode sets. -/
def Instruction.fetch (ip : Int) (memory : List Int) : Except String (Option Instruction) :=
  let ipn := usizeCast ip
  match memory[ipn]? with
  | none => .ok none
  | some instruction =>
    match Opcode.fromInt? (instruction.tmod 100) with
    | none => .error "unknown instruction"
    | some opcode =>
      match ParameterMode.fromInt? ((instruction.tdiv 100).tmod 10) with
      | none => .error "unknown parameter mode"
      | some m1 =>
        match ParameterMode.fromInt? ((instruction.tdiv 1000).tmod 10) with
        | none => .error "unknown parameter mode"
        | some m2 =>
          match ParameterMode.fromInt? ((instruction.tdiv 10000).tmod 10) with
          | none => .error "unknown parameter mode"
          | some m3 =>
            .ok (some
              { opcode := opcode
                parameters :=
                  (⟨m1, readAddr memory (ipn + 1)⟩,
                   ⟨m2, readAddr memory (ipn + 2)⟩,
                   ⟨m3, readAddr memory (ipn + 3)⟩) })

/-- `Parameter::value` of `src/07/main.rs` (named `valueIn` here because the
structure already has a `value` field).  Position mode uses direct indexing
`memory[self.value as usize]`, which panics when out of range. -/
def Parameter.valueIn (p : Parameter) (memory : List Int) : Except String Int :=
  match p.mode with
  | .position =>
    match memory[usizeCast p.value]? with
    | some v => .ok v
    | none => .error "index out of bounds"
  | .immediate => .ok p.value

/-- The combined effect of `*p.value_mut(&mut self.memory) = v` in
`src/07/main.rs`: `memory.get_mut(..).unwrap()` panics when the index is out
of range (this variant never grows memory), and an Immediate target panics. -/
def Parameter.writeIn (p : Parameter) (memory : List Int) (v : Int) : Except String (List Int) :=
  match p.mode with
  | .position =>
    if usizeCast p.value < memory.length then .ok (memory.set (usizeCast p.value) v)
    else .error "called unwrap on a None value"
  | .immediate => .error "can't get immediate as mut"

/-- The `Interpreter` state of `src/07/main.rs`.  This variant always has
channel ports (`rx`/`tx` are not `Option`); they are modelled by the same
explicit queues as in `Day09`.  In the `Write` arm the source runs
`if self.tx.send(value).is_err() { self.last_output = Some(value) }`:
`last_output` is only recorded when the send fails. -/
structure Interpreter where
  memory : List Int
  input : List Int
  inClosed : Bool
  output : List Int
  outClosed : Bool
  last_output : Option Int
  ip : Int
deriving DecidableEq

/-- `Interpreter::step` of `src/07/main.rs`. -/
def Interpreter.step (self : Interpreter) : StepOut Interpreter :=
  match Instruction.fetch self.ip self.memory with
  | .error msg => .fault msg
  | .ok none => .fault "called unwrap on a None value"
  | .ok (some instruction) =>
    let (a, b, c) := instruction.parameters
    match instruction.opcode with
    | .add =>
      match a.valueIn self.memory with
      | .error msg => .fault msg
      | .ok va =>
        match b.valueIn self.memory with
        | .error msg => .fault msg
        | .ok vb =>
          match c.writeIn self.memory (va + vb) with
          | .error msg => .fault msg
          | .ok mem => .next { self with memory := mem, ip := self.ip + 4 }
    | .multiply =>
      match a.valueIn self.memory with
      | .error msg => .fault msg
      | .ok va =>
        match b.valueIn self.memory with
        | .error msg => .fault msg
        | .ok vb =>
          match c.writeIn self.memory (va * vb) with
          | .error msg => .fault msg
          | .ok mem => .next { self with memory := mem, ip := self.ip + 4 }
    | .read =>
      match self.input with
      | [] =>
        if self.inClosed then .fault "called unwrap on an Err value: RecvError" else .blocked
      | v :: rest =>
        match a.writeIn self.memory v with
        | .error msg => .fault msg
        | .ok mem => .next { self with memory := mem, input := rest, ip := self.ip + 2 }
    | .write =>
      match a.valueIn self.memory with
      | .error msg => .fault msg
      | .ok value =>
        if self.outClosed then
          .next { self with last_output := some value, ip := self.ip + 2 }
        else
          .next { self with output := self.output ++ [value], ip := self.ip + 2 }
    | .jumpIfTrue =>
      match a.valueIn self.memory with
      | .error msg => .fault msg
      | .ok va =>
        if va ≠ 0 then
          match b.valueIn self.memory with
          | .error msg => .fault msg
          | .ok vb => .next { self with ip := vb }
        else
          .next { self with ip := self.ip + 3 }
    | .jumpIfFalse =>
      match a.valueIn self.memory with
      | .error msg => .fault msg
      | .ok va =>
        if va = 0 then
          match b.valueIn self.memory with
          | .error msg => .fault msg
          | .ok vb => .next { self with ip := vb }
        else
          .next { self with ip := self.ip + 3 }
    | .lessThan =>
      match a.valueIn self.memory with
      | .error msg => .fault msg
      | .ok va =>
        match b.valueIn self.memory with
        | .error msg => .fault msg
        | .ok vb =>
          match c.writeIn self.memory (if va < vb then 1 else 0) with
          | .error msg => .fault msg
          | .ok mem => .next { self with memory := mem, ip := self.ip + 4 }
    | .equals =>
      match a.valueIn self.memory with
      | .error msg => .fault msg
      | .ok va =>
        match b.valueIn self.memory with
        | .error msg => .fault msg
        | .ok vb =>
          match c.writeIn self.memory (if va = vb then 1 else 0) with
          | .error msg => .fault msg
          | .ok mem => .next { self with memory := mem, ip := self.ip + 4 }
    | .halt => .done self

end Day07

namespace Day05

/-- The opcode set of `src/05/main.rs` (only `Add`, `Multiply`, `Halt` are
active; the remaining arms are commented out in the source). -/
inductive Opcode where
  | add
  | multiply
  | halt
deriving DecidableEq

/-- `impl From<i64> for Opcode` in `src/05/main.rs`. -/
def Opcode.fromInt? (item : Int) : Option Opcode :=
  if item = 1 then some .add
  else if item = 2 then some .multiply
  else if item = 99 then some .halt
  else none

/-- Parameter addressing modes of `src/05/main.rs`. -/
inductive ParameterMode where
  | position
  | immediate
deriving DecidableEq

/-- `impl From<i64> for ParameterMode` in `src/05/main.rs`. -/
def ParameterMode.fromInt? (item : Int) : Option ParameterMode :=
  if item = 0 then some .position
  else if item = 1 then some .immediate
  else none

/-- A decoded parameter of `src/05/main.rs`. -/
structure Parameter where
  mode : ParameterMode
  value : Int
deriving DecidableEq

/-- A decoded instruction of `src/05/main.rs`. -/
structure Instruction where
  opcode : Opcode
  parameters : Parameter × Parameter × Parameter
deriving DecidableEq

/-- `Instruction::fetch` of `src/05/main.rs` (its `ip` argument is already a
`usize`).  Note: the source computes the mode of *all three* parameters from
`instruction / 100 % 10` — the second and third divisors are not `1000` and
`10000` as in the later variants. -/
def Instruction.fetch (ip : Nat) (memory : List Int) : Except String (Option Instruction) :=
  match memory[ip]? with
  | none => .ok none
  | some instruction =>
    match Opcode.fromInt? (instruction.tmod 100) with
    | none => .error "unknown instruction"
    | some opcode =>
      match ParameterMode.fromInt? ((instruction.tdiv 100).tmod 10) with
      | none => .error "unknown parameter mode"
      | some m1 =>
        match ParameterMode.fromInt? ((instruction.tdiv 100).tmod 10) with
        | none => .error "unknown parameter mode"
        | some m2 =>
          match ParameterMode.fromInt? ((instruction.tdiv 100).tmod 10) with
          | none => .error "unknown parameter mode"
          | some m3 =>
            .ok (some
              { opcode := opcode
                parameters :=
                  (⟨m1, readAddr memory (ip + 1)⟩,
                   ⟨m2, readAddr memory (ip + 2)⟩,
                   ⟨m3, readAddr memory (ip + 3)⟩) })

end Day05

namespace Day02

/-- The `run` loop of `src/02/main.rs`, with explicit `fuel` to bound the
number of loop iterations (`none` when the fuel runs out).  Each iteration
reads `mem[ip]`, `mem[ip+1]`, `mem[ip+2]`, `mem[ip+3]` before dispatching
(direct indexing, so any of these panics when out of range), then matches
the opcode: `1` adds, `2` multiplies, and *any* other value — `99` and
unknown opcodes alike — hits the `_ => break` arm and ends the loop
normally. -/
def run (fuel : Nat) (ip : Nat) (mem : List Int) : Option (Except String (List Int)) :=
  match fuel with
  | 0 => none
  | fuel + 1 =>
    match mem[ip]?, mem[ip + 1]?, mem[ip + 2]?, mem[ip + 3]? with
    | some opcode, some l, some r, some t =>
      let left := usizeCast l
      let right := usizeCast r
      let dest := usizeCast t
      if opcode = 1 then
        match mem[left]?, mem[right]? with
        | some vl, some vr =>
          if dest < mem.length then run fuel (ip + 4) (mem.set dest (vl + vr))
          else some (.error "index out of bounds")
        | _, _ => some (.error "index out of bounds")
      else if opcode = 2 then
        match mem[left]?, mem[right]? with
        | some vl, some vr =>
          if dest < mem.length then run fuel (ip + 4) (mem.set dest (vl * vr))
          else some (.error "index out of bounds")
        | _, _ => some (.error "index out of bounds")
      else some (.ok mem)
    | _, _, _, _ => some (.error "index out of bounds")

end Day02

namespace Day11

/-- The effective address a parameter resolves to for a memory access
(Position: the raw value; Relative: raw value plus the relative base). -/
def resolvedAddr (relative_base : Int) (p : Day09.Parameter) : Int :=
  match p.mode with
  | .position => p.value
  | .relative => p.value + relative_base
  | .immediate => p.value

/-- The combined effect of `*self.value_mut(parameter) = v` in
`src/11/main.rs`.  Unlike day 09, the index conversion is
`usize::try_from(..).unwrap()`, which panics exactly when the resolved
address is negative; a non-negative index is then grown into as in day 09.
(The day-11 `Interpreter` is otherwise identical to `Day09.Interpreter`, so
its parameter type is reused.) -/
def writeMem (memory : List Int) (relative_base : Int) (parameter : Day09.Parameter) (v : Int) :
    Except String (List Int) :=
  match parameter.mode with
  | .immediate => .error "can't get immediate as mut"
  | _ =>
    let addr := resolvedAddr relative_base parameter
    if 0 ≤ addr then .ok (Day09.growSet memory addr.toNat v)
    else .error "out of range integral type conversion attempted"

end Day11

/-! Concrete machine states and instructions used to evaluate the models on
specific inputs. -/

/-- A day-09 machine with the two-cell program `[1,2]`. -/
def c2state : Day09.Interpreter :=
  { memory := [1, 2], input := [], inClosed := false, output := [], outClosed := false,
    last_output := none, ip := 0, relative_base := 0 }

/-- A day-09 machine about to execute a Read (`mem[0] = 3`) with input `42`
queued; the first parameter addresses cell `1`, the third-parameter cell
`mem[3]` holds `2`. -/
def c3state : Day09.Interpreter :=
  { memory := [3, 1, 99, 2], input := [42], inClosed := false, output := [], outClosed := false,
    last_output := none, ip := 0, relative_base := 0 }

/-- A day-09 machine about to execute `1101,3,4,5`: add immediates `3` and
`4` into address `5`. -/
def c4state : Day09.Interpreter :=
  { memory := [1101, 3, 4, 5, 0, 0], input := [], inClosed := false, output := [],
    outClosed := false, last_output := none, ip := 0, relative_base := 0 }

/-- The decoding of `c4state`'s current cell `1101`. -/
def c4instr : Day09.Instruction :=
  { opcode := .add, parameters := (⟨.immediate, 3⟩, ⟨.immediate, 4⟩, ⟨.position, 5⟩) }

/-- A day-09 machine whose current cell `42` is not a recognized opcode. -/
def c5state : Day09.Interpreter :=
  { memory := [42], input := [], inClosed := false, output := [], outClosed := false,
    last_output := none, ip := 0, relative_base := 0 }

/-- A day-07 machine about to execute `104,7`: output the immediate `7`,
with a live (open) output channel. -/
def c6state : Day07.Interpreter :=
  { memory := [104, 7, 99], input := [], inClosed := false, output := [], outClosed := false,
    last_output := none, ip := 0 }

/-- A day-09 machine about to execute `104,5`: output the immediate `5`. -/
def c6day09state : Day09.Interpreter :=
  { memory := [104, 5, 99], input := [], inClosed := false, output := [], outClosed := false,
    last_output := none, ip := 0, relative_base := 0 }

/-- A day-09 machine with three memory cells, used to read at a negative
resolved address. -/
def c7state : Day09.Interpreter :=
  { memory := [5, 6, 7], input := [], inClosed := false, output := [], outClosed := false,
    last_output := none, ip := 0, relative_base := 0 }

/-- A day-09 machine with one memory cell, used with a Relative parameter
that resolves to a negative address. -/
def c7wstate : Day09.Interpreter :=
  { memory := [9], input := [], inClosed := false, output := [], outClosed := false,
    last_output := none, ip := 0, relative_base := 0 }

/-- A day-07 machine about to execute a Read whose input channel is drained
and closed (its producer has halted). -/
def c8state : Day07.Interpreter :=
  { memory := [3, 0, 99], input := [], inClosed := true, output := [], outClosed := false,
    last_output := none, ip := 0 }

/-- A second day-07 machine in the drained-and-closed input situation. -/
def c8wstate : Day07.Interpreter :=
  { memory := [3, 1, 99], input := [], inClosed := true, output := [], outClosed := false,
    last_output := none, ip := 0 }

/-- The decoding of `c8wstate`'s current cell `3`. -/
def c8winstr : Day07.Instruction :=
  { opcode := .read, parameters := (⟨.position, 1⟩, ⟨.position, 99⟩, ⟨.position, 0⟩) }

/-- A day-09 machine sitting on a `Halt` instruction. -/
def c9state : Day09.Interpreter :=
  { memory := [99], input := [], inClosed := false, output := [], outClosed := false,
    last_output := none, ip := 0, relative_base := 0 }

/-- A day-09 machine about to execute `1105,1,7`: jump-if-true on immediate
`1` to immediate target `7`. -/
def c10state : Day09.Interpreter :=
  { memory := [1105, 1, 7], input := [], inClosed := false, output := [], outClosed := false,
    last_output := none, ip := 0, relative_base := 0 }

/-- The decoding of `c10state`'s current cell `1105`. -/
def c10instr : Day09.Instruction :=
  { opcode := .jumpIfTrue, parameters := (⟨.immediate, 1⟩, ⟨.immediate, 7⟩, ⟨.position, 0⟩) }

/-! Helper lemmas about the memory model. -/

/-- `as usize` is the identity on values in `[0, 2^64)`. -/
theorem usizeCast_of_nonneg (v : Int) (h0 : 0 ≤ v) (h : v < 2 ^ 64) :
    usizeCast v = v.toNat := by
  unfold usizeCast
  rw [Int.emod_eq_of_lt h0 h]

/-- `as usize` adds `2^64` to values in `[-2^64, 0)`. -/
theorem usizeCast_of_neg (v : Int) (h0 : -(2 ^ 64) ≤ v) (h : v < 0) :
    usizeCast v = (v + 2 ^ 64).toNat := by
  unfold usizeCast
  have heq : (v + 2 ^ 64) % (2 ^ 64) = v % (2 ^ 64) := by
    have h := Int.add_mul_emod_self_left (a := v) (b := 2 ^ 64) (c := 1)
    rwa [mul_one] at h
  rw [← heq, Int.emod_eq_of_lt (by omega) (by omega)]

/-- Reading at or past the end of memory yields the default `0`. -/
theorem readAddr_of_len_le (mem : List Int) (d : Nat) (h : mem.length ≤ d) :
    readAddr mem d = 0 := by
  unfold readAddr
  rw [List.getElem?_eq_none h]
  rfl

namespace Day09

/-- Growing into index `W ≥ len` produces a memory of length `W + 1`. -/
theorem length_growSet_of_le (mem : List Int) (W : Nat) (v : Int) (h : mem.length ≤ W) :
    (growSet mem W v).length = W + 1 := by
  simp only [growSet, if_pos h, List.length_set, List.length_append, List.length_replicate]
  omega

/-- The written cell of `growSet` reads back as the written value. -/
theorem readAddr_growSet_self (mem : List Int) (W : Nat) (v : Int) :
    readAddr (growSet mem W v) W = v := by
  by_cases h : mem.length ≤ W
  · have hlen : W < (mem ++ List.replicate (W + 1 - mem.length) (0 : Int)).length := by
      simp only [List.length_append, List.length_replicate]
      omega
    simp only [growSet, if_pos h, readAddr]
    rw [List.getElem?_set_eq_of_lt v hlen]
    rfl
  · push_neg at h
    simp only [growSet, if_neg (not_le.mpr h), readAddr]
    rw [List.getElem?_set_eq_of_lt v h]
    rfl

/-- All cells other than the written one read back unchanged through
`growSet` (freshly grown cells read `0` in both the old and new memory). -/
theorem readAddr_growSet_ne (mem : List Int) (W : Nat) (v : Int) (d : Nat) (h : d ≠ W) :
    readAddr (growSet mem W v) d = readAddr mem d := by
  unfold growSet readAddr
  rw [List.getElem?_set_ne (by omega)]
  by_cases hg : mem.length ≤ W
  · rw [if_pos hg]
    by_cases hd : d < mem.length
    · rw [List.getElem?_append_left hd]
    · push_neg at hd
      rw [List.getElem?_append_right hd, List.getElem?_eq_none hd]
      by_cases hrep : d - mem.length < W + 1 - mem.length
      · simp [List.getElem?_replicate, hrep]
      · rw [List.getElem?_eq_none (by simpa using hrep)]
  · rw [if_neg hg]

end Day09

/-! Claim theorems. -/

/-- C1: the claim that every decoder takes the three parameter modes from
the successive decimal digits `cell/100 % 10`, `cell/1000 % 10`,
`cell/10000 % 10` fails on the day-05 decoder.  Evaluated on the cell
`1002` (memory `1002,4,3,4,33`, ip `0`) it decodes the *second* parameter
in Position mode — the source reuses the `/ 100 % 10` digit for all three
parameters — although the claimed digit `1002/1000 % 10 = 1` (second
conjunct) dictates Immediate mode. -/
theorem c1_day05_decoder_wrong_digits :
    Day05.Instruction.fetch 0 [1002, 4, 3, 4, 33] =
      .ok (some { opcode := .multiply,
                  parameters := (⟨.position, 4⟩, ⟨.position, 3⟩, ⟨.position, 4⟩) }) ∧
    ((1002 : Int).tdiv 1000).tmod 10 = 1 := by
  exact ⟨by decide, by decide⟩

/-- C2: on the day-09 machine, reading any address at or past the end of
the current memory (in particular any address past the initial program
that has never been written) returns `0` and cannot fail, while writing
such an address succeeds, zero-fills the gap, and the written value is
returned by a subsequent read of the same address. -/
theorem c2_sparse_memory (s : Day09.Interpreter) (a : Nat) (v : Int)
    (hlen : s.memory.length ≤ a) (hsmall : (a : Int) < 2 ^ 64) :
    s.value ⟨.position, (a : Int)⟩ = 0 ∧
    ∃ mem', s.writeMem ⟨.position, (a : Int)⟩ v = .ok mem' ∧
      Day09.Interpreter.value { s with memory := mem' } ⟨.position, (a : Int)⟩ = v ∧
      (∀ d, d < s.memory.length → readAddr mem' d = readAddr s.memory d) ∧
      (∀ d, s.memory.length ≤ d → d ≠ a → readAddr mem' d = 0) := by
  have hcast : usizeCast ((a : Nat) : Int) = a := by
    rw [usizeCast_of_nonneg _ (by positivity) hsmall, Int.toNat_natCast]
  refine ⟨?_, Day09.growSet s.memory a v, ?_, ?_, ?_, ?_⟩
  · show readAddr s.memory (usizeCast ((a : Nat) : Int)) = 0
    rw [hcast]
    exact readAddr_of_len_le _ _ hlen
  · show (match Day09.Interpreter.writeIndex? s ⟨.position, (a : Int)⟩ with
      | none => Except.error "can't get immediate as mut"
      | some index => Except.ok (Day09.growSet s.memory index v)) = _
    show Except.ok (Day09.growSet s.memory (usizeCast ((a : Nat) : Int)) v) = _
    rw [hcast]
  · show readAddr (Day09.growSet s.memory a v) (usizeCast ((a : Nat) : Int)) = v
    rw [hcast]
    exact Day09.readAddr_growSet_self _ _ _
  · intro d hd
    exact Day09.readAddr_growSet_ne _ _ _ _ (by omega)
  · intro d hd hda
    rw [Day09.readAddr_growSet_ne _ _ _ _ hda]
    exact readAddr_of_len_le _ _ hd

/-- Witness for C2: the hypotheses hold at `c2state` with address `5` and
value `42`. -/
theorem c2_sparse_memory_witness :
    c2state.value ⟨.position, ((5 : Nat) : Int)⟩ = 0 ∧
    ∃ mem', c2state.writeMem ⟨.position, ((5 : Nat) : Int)⟩ 42 = .ok mem' ∧
      Day09.Interpreter.value { c2state with memory := mem' } ⟨.position, ((5 : Nat) : Int)⟩ = 42 ∧
      (∀ d, d < c2state.memory.length → readAddr mem' d = readAddr c2state.memory d) ∧
      (∀ d, c2state.memory.length ≤ d → d ≠ 5 → readAddr mem' d = 0) :=
  c2_sparse_memory c2state 5 42 (by decide) (by decide)

/-- C3: the claim that the Read opcode stores the input value through its
first parameter fails on the day-09 machine.  With memory `[3,1,99,2]` and
input `42`, the first parameter addresses cell `1`, but the step stores
`42` at address `2` — the source's `Read` arm writes through `c`, the third
decoded parameter, whose raw value is `mem[3] = 2` — leaving cell `1` at
its old value `1`. -/
theorem c3_day09_read_writes_third_parameter :
    c3state.step = .next { c3state with memory := [3, 1, 42, 2], input := [], ip := 2 } ∧
    readAddr [3, 1, 42, 2] 1 = 1 ∧ readAddr [3, 1, 42, 2] 2 = 42 := by
  exact ⟨by decide, by decide, by decide⟩

/-- C4: executing an Add or Multiply instruction on the day-09 machine
leaves every memory cell other than the resolved destination `W` unchanged,
stores at `W` the exact unbounded-integer sum or product of the two
resolved source values, and advances the instruction pointer by 4 (the
relative base is untouched). -/
theorem c4_add_multiply_frame (s : Day09.Interpreter) (instr : Day09.Instruction)
    (hfetch : Day09.Instruction.fetch s.ip s.memory = .ok (some instr))
    (hop : instr.opcode = .add ∨ instr.opcode = .multiply)
    (W : Nat) (hW : s.writeIndex? instr.parameters.2.2 = some W) :
    ∃ s', s.step = .next s' ∧
      s'.ip = s.ip + 4 ∧
      s'.relative_base = s.relative_base ∧
      readAddr s'.memory W =
        (if instr.opcode = .add
          then s.value instr.parameters.1 + s.value instr.parameters.2.1
          else s.value instr.parameters.1 * s.value instr.parameters.2.1) ∧
      (∀ d, d ≠ W → readAddr s'.memory d = readAddr s.memory d) := by
  obtain ⟨op, a, b, c⟩ := instr
  simp only at hW ⊢
  rcases hop with hop | hop <;> subst hop
  · have hstep : s.step =
        .next { s with memory := Day09.growSet s.memory W (s.value a + s.value b), ip := s.ip + 4 } := by
      simp only [Day09.Interpreter.step, hfetch, Day09.Interpreter.writeMem, hW]
    refine ⟨_, hstep, rfl, rfl, ?_, ?_⟩
    · simp only [if_pos rfl]
      exact Day09.readAddr_growSet_self _ _ _
    · intro d hd
      exact Day09.readAddr_growSet_ne _ _ _ _ hd
  · have hstep : s.step =
        .next { s with memory := Day09.growSet s.memory W (s.value a * s.value b), ip := s.ip + 4 } := by
      simp only [Day09.Interpreter.step, hfetch, Day09.Interpreter.writeMem, hW]
    refine ⟨_, hstep, rfl, rfl, ?_, ?_⟩
    · rw [if_neg (by simp)]
      exact Day09.readAddr_growSet_self _ _ _
    · intro d hd
      exact Day09.readAddr_growSet_ne _ _ _ _ hd

/-- Witness for C4: the hypotheses hold at `c4state`, whose current
instruction `1101,3,4,5` is an Add with destination index `5`. -/
theorem c4_add_multiply_frame_witness :
    ∃ s', c4state.step = .next s' ∧
      s'.ip = c4state.ip + 4 ∧
      s'.relative_base = c4state.relative_base ∧
      readAddr s'.memory 5 =
        (if c4instr.opcode = .add
          then c4state.value c4instr.parameters.1 + c4state.value c4instr.parameters.2.1
          else c4state.value c4instr.parameters.1 * c4state.value c4instr.parameters.2.1) ∧
      (∀ d, d ≠ 5 → readAddr s'.memory d = readAddr c4state.memory d) :=
  c4_add_multiply_frame c4state c4instr (by decide) (Or.inl (by decide)) 5 (by decide)

/-- C5 counterexample: on the day-02 machine, an opcode outside the
recognized set `{1,2,3,4,5,6,7,8,9,99}` is *not* a surfaced failure.
Running from memory `[42,0,0,0]` — opcode `42` is outside that set —
terminates normally with the memory unchanged (`_ => break` treats it
exactly like a halt), so the unknown opcode is silently treated as a halt
rather than stopping execution with a surfaced `IllegalOpcode` failure. -/
theorem c5_day02_unknown_opcode_silent :
    Day02.run 10 0 [42, 0, 0, 0] = some (.ok [42, 0, 0, 0]) := by
  decide

/-- C5 (amended): on the decoder-based day-09 machine an unknown opcode is
fatal: if the cell at the instruction pointer is in range and its low two
decimal digits are outside `{1,…,9,99}`, `step` faults with the decoder's
"unknown instruction" panic.  (The day-02 variant instead treats any
unrecognized opcode as a silent halt, see the counterexample.) -/
theorem c5_unknown_opcode_faults (s : Day09.Interpreter) (cell : Int)
    (hcell : s.memory[usizeCast s.ip]? = some cell)
    (hbad : cell.tmod 100 ∉ ([1, 2, 3, 4, 5, 6, 7, 8, 9, 99] : List Int)) :
    s.step = .fault "unknown instruction" := by
  obtain ⟨h1, h2, h3, h4, h5, h6, h7, h8, h9, h99⟩ :
      cell.tmod 100 ≠ 1 ∧ cell.tmod 100 ≠ 2 ∧ cell.tmod 100 ≠ 3 ∧ cell.tmod 100 ≠ 4 ∧
      cell.tmod 100 ≠ 5 ∧ cell.tmod 100 ≠ 6 ∧ cell.tmod 100 ≠ 7 ∧ cell.tmod 100 ≠ 8 ∧
      cell.tmod 100 ≠ 9 ∧ cell.tmod 100 ≠ 99 := by
    simpa using hbad
  have hnone : Day09.Opcode.fromInt? (cell.tmod 100) = none := by
    simp [Day09.Opcode.fromInt?, h1, h2, h3, h4, h5, h6, h7, h8, h9, h99]
  simp only [Day09.Interpreter.step, Day09.Instruction.fetch, hcell, hnone]

/-- Witness for C5 (amended): `c5state`'s current cell is `42`, which is
not a recognized opcode, and its step faults. -/
theorem c5_unknown_opcode_faults_witness :
    c5state.step = .fault "unknown instruction" :=
  c5_unknown_opcode_faults c5state 42 (by decide) (by decide)

/-- C6 counterexample: on the day-07 machine with a live output channel,
executing Output (`104,7`) pushes `7` to the port but leaves `last_output`
as `none` — the source records `last_output` only when `tx.send` *fails* —
so not every Output execution records the value as `last_output`. -/
theorem c6_day07_send_ok_skips_last_output :
    c6state.step = .next { memory := [104, 7, 99], input := [], inClosed := false,
                           output := [7], outClosed := false, last_output := none, ip := 2 } := by
  decide

/-- C6 (amended): on the day-09 machine every Output execution pushes the
resolved first-parameter value to the (open) output port *and* records it
as `last_output`; consequently, stepping preserves the invariant that
`last_output` is the most recently produced output value (or `none` when no
output has been produced).  On the day-07 machine `last_output` is instead
recorded only when the send fails (see the counterexample). -/
theorem c6_day09_output_records_last (s : Day09.Interpreter) (hopen : s.outClosed = false) :
    (∀ instr : Day09.Instruction,
      Day09.Instruction.fetch s.ip s.memory = .ok (some instr) →
      instr.opcode = .write →
      s.step = .next { s with last_output := some (s.value instr.parameters.1),
                              output := s.output ++ [s.value instr.parameters.1],
                              ip := s.ip + 2 }) ∧
    (∀ s' : Day09.Interpreter, s.last_output = s.output.getLast? →
      (s.step = .next s' ∨ s.step = .done s') →
      s'.last_output = s'.output.getLast?) := by
  constructor
  · intro instr hfetch hop
    obtain ⟨op, a, b, c⟩ := instr
    simp only at hop
    subst hop
    simp [Day09.Interpreter.step, hfetch, hopen]
  · intro s' hinv hstep
    cases hfetch : Day09.Instruction.fetch s.ip s.memory with
    | error msg =>
      simp only [Day09.Interpreter.step, hfetch] at hstep
      rcases hstep with h | h <;> simp at h
    | ok o =>
      cases o with
      | none =>
        simp only [Day09.Interpreter.step, hfetch] at hstep
        rcases hstep with h | h <;> simp at h
      | some instr =>
        obtain ⟨op, a, b, c⟩ := instr
        cases op with
        | add =>
          simp only [Day09.Interpreter.step, hfetch] at hstep
          cases hw : s.writeMem c (s.value a + s.value b) with
          | error m =>
            simp only [hw] at hstep
            rcases hstep with h | h <;> simp at h
          | ok mem =>
            simp only [hw] at hstep
            rcases hstep with h | h
            · injection h with h'
              subst h'
              exact hinv
            · simp at h
        | multiply =>
          simp only [Day09.Interpreter.step, hfetch] at hstep
          cases hw : s.writeMem c (s.value a * s.value b) with
          | error m =>
            simp only [hw] at hstep
            rcases hstep with h | h <;> simp at h
          | ok mem =>
            simp only [hw] at hstep
            rcases hstep with h | h
            · injection h with h'
              subst h'
              exact hinv
            · simp at h
        | read =>
          simp only [Day09.Interpreter.step, hfetch] at hstep
          cases hin : s.input with
          | nil =>
            simp only [hin] at hstep
            cases hc : s.inClosed <;> simp only [hc] at hstep <;>
              rcases hstep with h | h <;> simp at h
          | cons v rest =>
            simp only [hin] at hstep
            cases hw : s.writeMem c v with
            | error m =>
              simp only [hw] at hstep
              rcases hstep with h | h <;> simp at h
            | ok mem =>
              simp only [hw] at hstep
              rcases hstep with h | h
              · injection h with h'
                subst h'
                exact hinv
              · simp at h
        | write =>
          simp only [Day09.Interpreter.step, hfetch, hopen] at hstep
          rcases hstep with h | h
          · injection h with h'
            subst h'
            simp
          · simp at h
        | jumpIfTrue =>
          simp only [Day09.Interpreter.step, hfetch] at hstep
          rcases hstep with h | h
          · injection h with h'
            subst h'
            exact hinv
          · simp at h
        | jumpIfFalse =>
          simp only [Day09.Interpreter.step, hfetch] at hstep
          rcases hstep with h | h
          · injection h with h'
            subst h'
            exact hinv
          · simp at h
        | lessThan =>
          simp only [Day09.Interpreter.step, hfetch] at hstep
          cases hw : s.writeMem c (if s.value a < s.value b then 1 else 0) with
          | error m =>
            simp only [hw] at hstep
            rcases hstep with h | h <;> simp at h
          | ok mem =>
            simp only [hw] at hstep
            rcases hstep with h | h
            · injection h with h'
              subst h'
              exact hinv
            · simp at h
        | equals =>
          simp only [Day09.Interpreter.step, hfetch] at hstep
          cases hw : s.writeMem c (if s.value a = s.value b then 1 else 0) with
          | error m =>
            simp only [hw] at hstep
            rcases hstep with h | h <;> simp at h
          | ok mem =>
            simp only [hw] at hstep
            rcases hstep with h | h
            · injection h with h'
              subst h'
              exact hinv
            · simp at h
        | relativeBase =>
          simp only [Day09.Interpreter.step, hfetch] at hstep
          rcases hstep with h | h
          · injection h with h'
            subst h'
            exact hinv
          · simp at h
        | halt =>
          simp only [Day09.Interpreter.step, hfetch] at hstep
          rcases hstep with h | h
          · simp at h
          · injection h with h'
            subst h'
            exact hinv

/-- Witness for C6 (amended) at `c6day09state`, whose output port is open. -/
theorem c6_day09_output_records_last_witness :
    (∀ instr : Day09.Instruction,
      Day09.Instruction.fetch c6day09state.ip c6day09state.memory = .ok (some instr) →
      instr.opcode = .write →
      c6day09state.step = .next { c6day09state with
        last_output := some (c6day09state.value instr.parameters.1),
        output := c6day09state.output ++ [c6day09state.value instr.parameters.1],
        ip := c6day09state.ip + 2 }) ∧
    (∀ s' : Day09.Interpreter, c6day09state.last_output = c6day09state.output.getLast? →
      (c6day09state.step = .next s' ∨ c6day09state.step = .done s') →
      s'.last_output = s'.output.getLast?) :=
  c6_day09_output_records_last c6day09state (by decide)

/-- C7 counterexample: a read whose resolved address is negative does not
fail.  On the day-09/11 `value`, the Position parameter `-1` is wrapped by
`as usize` to an index far past the end of memory and the read returns `0`
instead of failing. -/
theorem c7_negative_read_returns_zero :
    c7state.value ⟨.position, -1⟩ = 0 := by
  decide

/-- C7 (amended): only *write* accesses fail on a negative resolved
address: the day-11 `value_mut` faults if and only if the effective address
after relative-base resolution is negative (and succeeds on every
non-negative one), whereas a read never fails — a negative resolved read
address wraps past the end of any memory shorter than `addr + 2^64` cells
and returns `0`. -/
theorem c7_write_fault_iff_negative (s : Day09.Interpreter) (p : Day09.Parameter) (v : Int)
    (hmode : p.mode ≠ .immediate) :
    ((∃ msg, Day11.writeMem s.memory s.relative_base p v = .error msg) ↔
      Day11.resolvedAddr s.relative_base p < 0) ∧
    (Day11.resolvedAddr s.relative_base p < 0 →
      -(2 ^ 64) ≤ Day11.resolvedAddr s.relative_base p →
      (s.memory.length : Int) ≤ Day11.resolvedAddr s.relative_base p + 2 ^ 64 →
      s.value p = 0) := by
  obtain ⟨m, val⟩ := p
  cases m with
  | immediate => exact absurd rfl hmode
  | position =>
    simp only [Day11.resolvedAddr]
    constructor
    · constructor
      · rintro ⟨msg, hmsg⟩
        by_contra hge
        push_neg at hge
        simp [Day11.writeMem, Day11.resolvedAddr, hge] at hmsg
      · intro hneg
        exact ⟨"out of range integral type conversion attempted",
          by simp [Day11.writeMem, Day11.resolvedAddr, not_le.mpr hneg]⟩
    · intro h1 h2 h3
      simp only [Day09.Interpreter.value]
      rw [usizeCast_of_neg val h2 h1]
      exact readAddr_of_len_le _ _ (by omega)
  | relative =>
    simp only [Day11.resolvedAddr]
    constructor
    · constructor
      · rintro ⟨msg, hmsg⟩
        by_contra hge
        push_neg at hge
        simp [Day11.writeMem, Day11.resolvedAddr, hge] at hmsg
      · intro hneg
        exact ⟨"out of range integral type conversion attempted",
          by simp [Day11.writeMem, Day11.resolvedAddr, not_le.mpr hneg]⟩
    · intro h1 h2 h3
      simp only [Day09.Interpreter.value]
      rw [usizeCast_of_neg _ h2 h1]
      exact readAddr_of_len_le _ _ (by omega)

/-- Witness for C7 (amended) at `c7wstate` with the Relative parameter
`-5`, whose resolved address is negative. -/
theorem c7_write_fault_iff_negative_witness :
    ((∃ msg, Day11.writeMem c7wstate.memory c7wstate.relative_base ⟨.relative, -5⟩ 3 = .error msg) ↔
      Day11.resolvedAddr c7wstate.relative_base ⟨.relative, -5⟩ < 0) ∧
    (Day11.resolvedAddr c7wstate.relative_base ⟨.relative, -5⟩ < 0 →
      -(2 ^ 64) ≤ Day11.resolvedAddr c7wstate.relative_base ⟨.relative, -5⟩ →
      (c7wstate.memory.length : Int) ≤ Day11.resolvedAddr c7wstate.relative_base ⟨.relative, -5⟩ + 2 ^ 64 →
      c7wstate.value ⟨.relative, -5⟩ = 0) :=
  c7_write_fault_iff_negative c7wstate ⟨.relative, -5⟩ 3 (by decide)

/-- C8 counterexample: a receive on a drained input port whose producer has
halted (channel closed) is not a graceful "closed" outcome on the day-07
machine: the `Read` arm's `rx.recv().unwrap()` panics, so the step faults
instead of taking a normal termination path. -/
theorem c8_recv_closed_faults :
    c8state.step = .fault "called unwrap on an Err value: RecvError" := by
  decide

/-- C8 (amended): on the day-07 machine, whenever the current instruction
is Read, the input queue is drained, and the producing side has closed the
channel, `step` faults — receive-side port closure is an unwrap panic, not
a normal termination path (only the send side handles closure gracefully,
by recording `last_output` on a failed send). -/
theorem c8_recv_closed_faults_general (s : Day07.Interpreter) (instr : Day07.Instruction)
    (hfetch : Day07.Instruction.fetch s.ip s.memory = .ok (some instr))
    (hop : instr.opcode = .read)
    (hq : s.input = [])
    (hc : s.inClosed = true) :
    s.step = .fault "called unwrap on an Err value: RecvError" := by
  obtain ⟨op, a, b, c⟩ := instr
  simp only at hop
  subst hop
  simp [Day07.Interpreter.step, hfetch, hq, hc]

/-- Witness for C8 (amended) at `c8wstate`, whose current instruction is a
Read and whose input channel is drained and closed. -/
theorem c8_recv_closed_faults_general_witness :
    c8wstate.step = .fault "called unwrap on an Err value: RecvError" :=
  c8_recv_closed_faults_general c8wstate c8winstr (by decide) (by decide) (by decide) (by decide)

/-- C9: stepping a day-09 machine that has reached its `Halt` instruction
is idempotent: the step reports halting with the machine state unchanged
(memory, instruction pointer, relative base, input/output history all
intact — in particular execution does not restart from ip 0), and stepping
again reports halting with the same unchanged state.  (A `Faulted` machine
is a Rust panic: the interpreter is unwound, so no further `step` call
exists to observe.) -/
theorem c9_halt_idempotent (s s' : Day09.Interpreter) (h : s.step = .done s') :
    s' = s ∧ s'.step = .done s' := by
  cases hfetch : Day09.Instruction.fetch s.ip s.memory with
  | error msg =>
    simp only [Day09.Interpreter.step, hfetch] at h
    simp at h
  | ok o =>
    cases o with
    | none =>
      simp only [Day09.Interpreter.step, hfetch] at h
      simp at h
    | some instr =>
      obtain ⟨op, a, b, c⟩ := instr
      cases op with
      | add =>
        simp only [Day09.Interpreter.step, hfetch] at h
        cases hw : s.writeMem c (s.value a + s.value b) <;> simp only [hw] at h <;> simp at h
      | multiply =>
        simp only [Day09.Interpreter.step, hfetch] at h
        cases hw : s.writeMem c (s.value a * s.value b) <;> simp only [hw] at h <;> simp at h
      | read =>
        simp only [Day09.Interpreter.step, hfetch] at h
        cases hin : s.input with
        | nil =>
          simp only [hin] at h
          cases hc : s.inClosed <;> simp only [hc] at h <;> simp at h
        | cons v rest =>
          simp only [hin] at h
          cases hw : s.writeMem c v <;> simp only [hw] at h <;> simp at h
      | write =>
        simp only [Day09.Interpreter.step, hfetch] at h
        simp at h
      | jumpIfTrue =>
        simp only [Day09.Interpreter.step, hfetch] at h
        simp at h
      | jumpIfFalse =>
        simp only [Day09.Interpreter.step, hfetch] at h
        simp at h
      | lessThan =>
        simp only [Day09.Interpreter.step, hfetch] at h
        cases hw : s.writeMem c (if s.value a < s.value b then 1 else 0) <;>
          simp only [hw] at h <;> simp at h
      | equals =>
        simp only [Day09.Interpreter.step, hfetch] at h
        cases hw : s.writeMem c (if s.value a = s.value b then 1 else 0) <;>
          simp only [hw] at h <;> simp at h
      | relativeBase =>
        simp only [Day09.Interpreter.step, hfetch] at h
        simp at h
      | halt =>
        simp only [Day09.Interpreter.step, hfetch] at h
        injection h with h'
        subst h'
        refine ⟨rfl, ?_⟩
        simp only [Day09.Interpreter.step, hfetch]

/-- Witness for C9 at `c9state`, which sits on a `Halt` instruction. -/
theorem c9_halt_idempotent_witness :
    c9state = c9state ∧ c9state.step = .done c9state :=
  c9_halt_idempotent c9state c9state (by decide)

/-- C10: resolving parameters for reading never mutates the day-09
machine.  A step whose instruction only reads its parameters (Output, the
two jumps, AdjustRelativeBase) leaves the memory untouched; a read resolved
past the current storage extent returns `0` without extending storage; and
only resolving a write target extends storage, zero-filling the gap up to
the written index. -/
theorem c10_param_resolution (s : Day09.Interpreter) (instr : Day09.Instruction)
    (hfetch : Day09.Instruction.fetch s.ip s.memory = .ok (some instr))
    (hop : instr.opcode = .write ∨ instr.opcode = .jumpIfTrue ∨
      instr.opcode = .jumpIfFalse ∨ instr.opcode = .relativeBase)
    (p q : Day09.Parameter) (v : Int) (W : Nat)
    (hpmode : p.mode = .position) (hpnn : 0 ≤ p.value) (hpsmall : p.value < 2 ^ 64)
    (hplen : s.memory.length ≤ p.value.toNat)
    (hqW : s.writeIndex? q = some W) (hWlen : s.memory.length ≤ W) :
    (∃ s', s.step = .next s' ∧ s'.memory = s.memory) ∧
    s.value p = 0 ∧
    (∃ mem', s.writeMem q v = .ok mem' ∧ mem'.length = W + 1 ∧ readAddr mem' W = v ∧
      (∀ d, d < s.memory.length → readAddr mem' d = readAddr s.memory d) ∧
      (∀ d, s.memory.length ≤ d → d ≠ W → readAddr mem' d = 0)) := by
  obtain ⟨op, a, b, c⟩ := instr
  refine ⟨?_, ?_, ?_⟩
  · rcases hop with hop | hop | hop | hop <;> simp only at hop <;> subst hop <;>
      simp only [Day09.Interpreter.step, hfetch] <;> exact ⟨_, rfl, rfl⟩
  · obtain ⟨pm, pv⟩ := p
    simp only at hpmode
    subst hpmode
    simp only [Day09.Interpreter.value]
    rw [usizeCast_of_nonneg _ hpnn hpsmall]
    exact readAddr_of_len_le _ _ hplen
  · refine ⟨Day09.growSet s.memory W v, ?_, ?_, ?_, ?_, ?_⟩
    · simp only [Day09.Interpreter.writeMem, hqW]
    · exact Day09.length_growSet_of_le _ _ _ hWlen
    · exact Day09.readAddr_growSet_self _ _ _
    · intro d hd
      exact Day09.readAddr_growSet_ne _ _ _ _ (by omega)
    · intro d hd hdW
      rw [Day09.readAddr_growSet_ne _ _ _ _ hdW]
      exact readAddr_of_len_le _ _ hd

/-- Witness for C10 at `c10state` (current instruction `1105,1,7`, a
jump-if-true that only reads its parameters), with the out-of-extent read
parameter `[7]` and the out-of-extent write target `[6]`. -/
theorem c10_param_resolution_witness :
    (∃ s', c10state.step = .next s' ∧ s'.memory = c10state.memory) ∧
    c10state.value ⟨.position, 7⟩ = 0 ∧
    (∃ mem', c10state.writeMem ⟨.position, 6⟩ 9 = .ok mem' ∧ mem'.length = 6 + 1 ∧
      readAddr mem' 6 = 9 ∧
      (∀ d, d < c10state.memory.length → readAddr mem' d = readAddr c10state.memory d) ∧
      (∀ d, c10state.memory.length ≤ d → d ≠ 6 → readAddr mem' d = 0)) :=
  c10_param_resolution c10state c10instr (by decide)
    (Or.inr (Or.inl (by decide))) ⟨.position, 7⟩ ⟨.position, 6⟩ 9 6
    (by decide) (by decide) (by decide) (by decide) (by decide) (by decide)

end Aoc2019
